import Mathlib

/-!
Shallow embedding of the SDL KMSDRM video driver
(`src/video/kmsdrm/SDL_kmsdrmvideo.c`).

Kernel mode-setting state (DRM resources, connectors, encoders, CRTCs),
the filesystem and the dynamic-symbol loader are modelled as explicit
environment records; every kernel call the driver makes is recorded in a
trace of `Ev` events so that resource acquisition/release balance can be
stated and proved.
-/

set_option linter.unusedVariables false

/-- A DRM mode (`drmModeModeInfo`): the fields the driver reads. -/
structure DrmMode where
  hdisplay : Nat
  vdisplay : Nat
  vrefresh : Nat
deriving DecidableEq

/-- The DRM resource list (`drmModeRes`): ids of connectors, encoders, CRTCs.
`count_connectors` etc. are the list lengths. -/
structure DrmRes where
  connectors : List Nat
  encoders : List Nat
  crtcs : List Nat
deriving DecidableEq

/-- A DRM connector (`drmModeConnector`): the fields the driver reads. -/
structure DrmConnector where
  connector_id : Nat
  connected : Bool
  modes : List DrmMode
  encoder_id : Nat
  encoders : List Nat
deriving DecidableEq

/-- A DRM encoder (`drmModeEncoder`). -/
structure DrmEncoder where
  encoder_id : Nat
  crtc_id : Nat
  possible_crtcs : Nat
deriving DecidableEq

/-- A DRM CRTC (`drmModeCrtc`): the fields the driver reads and restores. -/
structure DrmCrtc where
  crtc_id : Nat
  buffer_id : Nat
  x : Nat
  y : Nat
  width : Nat
  height : Nat
  mode_valid : Nat
  mode : DrmMode
deriving DecidableEq

/-- Trace events: each kernel/library call the driver issues. -/
inductive Ev where
  | fdOpen (fd : Nat)
  | fdClose (fd : Nat)
  | gbmNew
  | gbmDestroy
  | resGet
  | resFree
  | connGet (id : Nat)
  | connFree (id : Nat)
  | encGet (id : Nat)
  | encFree (id : Nat)
  | crtcGet (id : Nat)
  | crtcFree (id : Nat)
  | setCrtc (crtc_id buffer_id x y conn_id : Nat) (mode : DrmMode)
  | addFB (fb_id : Nat)
  | pollCall (timeout : Int)
  | handleEvent
  | releaseBuffer (bo : Nat)
  | eglDestroy
  | gsDestroy
deriving DecidableEq

/-- The kernel's mode-setting oracle as seen through one open device:
what each query returns. -/
structure Kernel where
  resources : Option DrmRes
  getConnector : Nat → Option DrmConnector
  getEncoder : Nat → Option DrmEncoder
  getCrtc : Nat → Option DrmCrtc

/-- Environment for device enumeration: the `/dev/dri` directory listing
(`none` when the directory cannot be statted/accessed), the result of
opening `cardN` per index, whether the DRM symbols load, and the
per-index resource query. -/
structure EnumEnv where
  dirEntries : Option (List String)
  openCard : Nat → Option Nat
  loadSymbolsOk : Bool
  resources : Nat → Option DrmRes

/-- `get_dricount`: counts directory entries whose name has length > 4 and
starts with "card"; 0 when the directory is unavailable. -/
def get_dricount (e : EnumEnv) : Nat :=
  match e.dirEntries with
  | none => 0
  | some l => (l.filter (fun s => decide (4 < s.length) && (s.take 4 == "card"))).length

/-- The resource query as the driver can perform it: `drmModeGetResources`
is only callable once `SDL_KMSDRM_LoadSymbols` succeeded, so the query
yields nothing when the symbols do not load. -/
def queryResources (e : EnumEnv) (devindex : Nat) : Option DrmRes :=
  if e.loadSymbolsOk then e.resources devindex else none

/-- `check_modestting(devindex)`: opens `/dev/dri/cardN`; if that succeeds,
queries the mode-setting resources and reports available iff the query
succeeds with at least one connector, one encoder and one CRTC. Returns
the availability flag and the trace of environment calls. -/
def check_modestting (e : EnumEnv) (devindex : Nat) : Bool × List Ev :=
  match e.openCard devindex with
  | none => (false, [])
  | some fd =>
    match queryResources e devindex with
    | none => (false, [Ev.fdOpen fd, Ev.fdClose fd])
    | some r =>
      (decide (0 < r.connectors.length) && decide (0 < r.encoders.length)
         && decide (0 < r.crtcs.length),
       [Ev.fdOpen fd, Ev.resGet, Ev.resFree, Ev.fdClose fd])

/-- The scan loop of `get_driindex`: try indices `i, i+1, ...` for `fuel`
steps; return the first index whose probe succeeds, else `-ENOENT`. -/
def driLoop (e : EnumEnv) : Nat → Nat → Int
  | _, 0 => -2
  | i, fuel + 1 => if (check_modestting e i).1 then (i : Int) else driLoop e (i + 1) fuel

/-- `get_driindex`: scan `0 .. get_dricount e - 1` in order, return the first
index for which `check_modestting` succeeds, else `-ENOENT` (= -2). -/
def get_driindex (e : EnumEnv) : Int :=
  driLoop e 0 (get_dricount e)

lemma driLoop_spec (e : EnumEnv) :
    ∀ fuel i,
      (driLoop e i fuel = -2 ∧
        ((List.range fuel).all fun j => !(check_modestting e (i + j)).1) = true) ∨
      (∃ k : Nat, driLoop e i fuel = ((i + k : Nat) : Int) ∧ k < fuel ∧
        (check_modestting e (i + k)).1 = true ∧
        ((List.range k).all fun j => !(check_modestting e (i + j)).1) = true) := by
  intro fuel
  induction fuel with
  | zero => intro i; exact Or.inl ⟨rfl, rfl⟩
  | succ n ih =>
    intro i
    by_cases h : (check_modestting e i).1 = true
    · refine Or.inr ⟨0, ?_, Nat.succ_pos n, by simpa using h, by simp⟩
      simp [driLoop, h]
    · have hstep : driLoop e i (n + 1) = driLoop e (i + 1) n := by
        simp [driLoop, h]
      rcases ih (i + 1) with ⟨h1, h2⟩ | ⟨k, h1, h2, h3, h4⟩
      · left
        refine ⟨by rw [hstep]; exact h1, ?_⟩
        rw [List.all_eq_true] at h2 ⊢
        intro j hj
        rcases List.mem_range.mp hj with hjlt
        rcases Nat.eq_zero_or_pos j with rfl | hpos
        · simpa using h
        · obtain ⟨j', rfl⟩ := Nat.exists_eq_add_of_lt hpos
          have := h2 j' (List.mem_range.mpr (by omega))
          simpa [Nat.add_comm, Nat.add_assoc, Nat.add_left_comm] using this
      · right
        refine ⟨k + 1, ?_, by omega, by
          have : i + 1 + k = i + (k + 1) := by omega
          rw [← this]; exact h3, ?_⟩
        · rw [hstep, h1]; congr 1; omega
        · rw [List.all_eq_true] at h4 ⊢
          intro j hj
          rcases List.mem_range.mp hj with hjlt
          rcases Nat.eq_zero_or_pos j with rfl | hpos
          · simpa using h
          · obtain ⟨j', rfl⟩ := Nat.exists_eq_add_of_lt hpos
            have := h4 j' (List.mem_range.mpr (by omega))
            simpa [Nat.add_comm, Nat.add_assoc, Nat.add_left_comm] using this

/-- C5: `get_driindex` scans indices `0 .. get_dricount e - 1` in increasing
order and returns the lowest index whose probe succeeds; when no scanned
index probes successfully it returns `-ENOENT` (= -2), a negative error. -/
theorem get_driindex_lowest (e : EnumEnv) :
    (get_driindex e = -2 ∧
      ((List.range (get_dricount e)).all fun j => !(check_modestting e j).1) = true) ∨
    (∃ i : Nat, get_driindex e = (i : Int) ∧ i < get_dricount e ∧
      (check_modestting e i).1 = true ∧
      ((List.range i).all fun j => !(check_modestting e j).1) = true) := by
  rcases driLoop_spec e (get_dricount e) 0 with ⟨h1, h2⟩ | ⟨k, h1, h2, h3, h4⟩
  · exact Or.inl ⟨h1, by simpa using h2⟩
  · exact Or.inr ⟨k, by simpa using h1, h2, by simpa using h3, by simpa using h4⟩

/-- C6: `check_modestting` reports the device available iff opening it
succeeds and the mode-setting resource query (performable only once the
DRM symbols are loaded) reports at least one connector, one encoder and
one CRTC; and on every path where the open succeeded, the descriptor is
closed and any queried resource list is freed before returning. -/
theorem check_modestting_spec (e : EnumEnv) (i : Nat) :
    ((check_modestting e i).1 = true ↔
      ((e.openCard i).isSome = true ∧
        ∃ r, queryResources e i = some r ∧
          0 < r.connectors.length ∧ 0 < r.encoders.length ∧ 0 < r.crtcs.length)) ∧
    ((e.openCard i = none ∧ (check_modestting e i).2 = []) ∨
      (∃ fd, e.openCard i = some fd ∧
        ((check_modestting e i).2).count (Ev.fdOpen fd) = 1 ∧
        ((check_modestting e i).2).count (Ev.fdClose fd) = 1 ∧
        ((check_modestting e i).2).count Ev.resGet = ((check_modestting e i).2).count Ev.resFree)) := by
  constructor
  · unfold check_modestting
    rcases hopen : e.openCard i with _ | fd
    · simp
    · rcases hq : queryResources e i with _ | r
      · simp
      · simp only [Option.isSome_some, true_and]
        constructor
        · intro h
          refine ⟨r, rfl, ?_⟩
          simp only [Bool.and_eq_true, decide_eq_true_eq] at h
          exact ⟨h.1.1, h.1.2, h.2⟩
        · rintro ⟨r', hr', h1, h2, h3⟩
          injection hr' with hrr
          subst hrr
          simp only [Bool.and_eq_true, decide_eq_true_eq]
          exact ⟨⟨h1, h2⟩, h3⟩
  · unfold check_modestting
    rcases hopen : e.openCard i with _ | fd
    · exact Or.inl ⟨rfl, rfl⟩
    · refine Or.inr ⟨fd, rfl, ?_⟩
      rcases hq : queryResources e i with _ | r <;> simp [List.count_cons]

/-- The driver's per-device data (`SDL_VideoData`): device index, DRM file
descriptor (-1 when closed), and whether the GBM allocator exists. -/
structure VidData where
  devindex : Nat
  drm_fd : Int
  gbm : Bool
deriving DecidableEq

/-- Environment for `KMSDRM_CreateDevice`: the enumeration environment plus
whether symbol loading and the two allocations succeed. -/
structure CreateEnv where
  enumEnv : EnumEnv
  loadOk : Bool
  devAllocOk : Bool
  vidAllocOk : Bool

/-- `KMSDRM_CreateDevice(devindex)`: a requested index of 0 (`!devindex`) or
above 99 is replaced by `get_driindex()`; a negative resolved index is an
error; then symbols load and the device/viddata allocations happen, with
`drm_fd` set to -1. Returns the created viddata, `none` on error. -/
def KMSDRM_CreateDevice (e : CreateEnv) (devindex : Int) : Option VidData :=
  let d := if devindex = 0 ∨ 99 < devindex then get_driindex e.enumEnv else devindex
  if d < 0 then none
  else if e.loadOk = false then none
  else if e.devAllocOk = false then none
  else if e.vidAllocOk = false then none
  else some { devindex := d.toNat, drm_fd := -1, gbm := false }

/-- C10: a requested device index of 0 or above 99 is replaced by the
directory-scan result `get_driindex`: any device actually created carries
the scanned index, and when the scan finds no usable device (negative
result) creation fails with an error. -/
theorem createDevice_autoselects (e : CreateEnv) (devindex : Int)
    (h : devindex = 0 ∨ 99 < devindex) :
    (∀ vd, KMSDRM_CreateDevice e devindex = some vd →
      (vd.devindex : Int) = get_driindex e.enumEnv) ∧
    (get_driindex e.enumEnv < 0 → KMSDRM_CreateDevice e devindex = none) := by
  unfold KMSDRM_CreateDevice
  rw [if_pos h]
  constructor
  · intro vd hvd
    by_cases hneg : get_driindex e.enumEnv < 0
    · rw [if_pos hneg] at hvd; exact absurd hvd (by simp)
    · rw [if_neg hneg] at hvd
      split at hvd
      · exact absurd hvd (by simp)
      · split at hvd
        · exact absurd hvd (by simp)
        · split at hvd
          · exact absurd hvd (by simp)
          · injection hvd with hv
            rw [← hv]
            simp only []
            exact Int.toNat_of_nonneg (le_of_not_lt hneg)
  · intro hneg
    rw [if_pos hneg]

/-- Witness for C10: with no usable device in the environment, an explicit
request for device 0 fails. -/
theorem createDevice_autoselects_witness :
    KMSDRM_CreateDevice
      { enumEnv := { dirEntries := none, openCard := fun _ => none,
                     loadSymbolsOk := true, resources := fun _ => none },
        loadOk := true, devAllocOk := true, vidAllocOk := true } 0 = none :=
  (createDevice_autoselects _ 0 (Or.inl rfl)).2 (by decide)

/-- Framebuffer metadata attached to a buffer object (`KMSDRM_FBInfo`). -/
structure KMSDRM_FBInfo where
  fb_id : Nat
  drm_fd : Int
deriving DecidableEq

/-- A GBM buffer object: the fields `KMSDRM_FBFromBO` reads, plus the
attached user data (the framebuffer metadata, with its destroy hook). -/
structure GbmBo where
  width : Nat
  height : Nat
  stride : Nat
  handle : Nat
  user_data : Option KMSDRM_FBInfo
deriving DecidableEq

/-- Environment for `KMSDRM_FBFromBO`: whether the `SDL_calloc` succeeds and
what `drmModeAddFB` returns for given buffer parameters (`none` = failure,
`some id` = the created framebuffer id). -/
structure FbEnv where
  callocOk : Bool
  addFB : Nat → Nat → Nat → Nat → Option Nat

/-- `KMSDRM_FBFromBO(bo)`: return the buffer's existing framebuffer metadata
if present; otherwise allocate metadata, ask the kernel to create a
framebuffer from the buffer's width/height/stride/handle, attach the
result to the buffer, and return it. Result: the returned metadata
(`none` on failure), the updated buffer, and the number of
`drmModeAddFB` kernel calls issued. -/
def KMSDRM_FBFromBO (e : FbEnv) (drm_fd : Int) (bo : GbmBo) :
    Option KMSDRM_FBInfo × GbmBo × Nat :=
  match bo.user_data with
  | some fb_info => (some fb_info, bo, 0)
  | none =>
    if e.callocOk = false then (none, bo, 0)
    else
      match e.addFB bo.width bo.height bo.stride bo.handle with
      | none => (none, bo, 1)
      | some id =>
        let fb_info : KMSDRM_FBInfo := { fb_id := id, drm_fd := drm_fd }
        (some fb_info, { bo with user_data := some fb_info }, 1)

/-- C7: `KMSDRM_FBFromBO` is idempotent per buffer: after any successful call
(which creates a kernel framebuffer at most once), a second call on the
resulting buffer — under any environment and descriptor — returns exactly
the same metadata, leaves the buffer unchanged, and issues no new
`drmModeAddFB` kernel call. -/
theorem fbFromBO_idempotent (e1 e2 : FbEnv) (fd1 fd2 : Int) (bo bo2 : GbmBo)
    (fb : KMSDRM_FBInfo) (n : Nat)
    (h : KMSDRM_FBFromBO e1 fd1 bo = (some fb, bo2, n)) :
    KMSDRM_FBFromBO e2 fd2 bo2 = (some fb, bo2, 0) := by
  have hud : bo2.user_data = some fb := by
    unfold KMSDRM_FBFromBO at h
    rcases hu : bo.user_data with _ | fb0
    · rw [hu] at h
      simp only [] at h
      split at h
      · exact absurd h (by simp)
      · rcases hadd : e1.addFB bo.width bo.height bo.stride bo.handle with _ | id
        · rw [hadd] at h; exact absurd h (by simp)
        · rw [hadd] at h
          injection h with h1 h2
          injection h2 with h2 h3
          rw [← h2]
          injection h1 with h1
          rw [← h1]
    · rw [hu] at h
      injection h with h1 h2
      injection h2 with h2 h3
      injection h1 with h1
      rw [← h2, hu, h1]
  unfold KMSDRM_FBFromBO
  rw [hud]

/-- Witness for C7: a concrete first call creates the framebuffer, and the
second call on the result returns it unchanged with no kernel call. -/
theorem fbFromBO_idempotent_witness :
    KMSDRM_FBFromBO
      { callocOk := true, addFB := fun _ _ _ _ => some 42 } 3
      { width := 640, height := 480, stride := 2560, handle := 7,
        user_data := some { fb_id := 42, drm_fd := 3 } } =
      (some { fb_id := 42, drm_fd := 3 },
       { width := 640, height := 480, stride := 2560, handle := 7,
         user_data := some { fb_id := 42, drm_fd := 3 } }, 0) :=
  fbFromBO_idempotent
    { callocOk := true, addFB := fun _ _ _ _ => some 42 }
    { callocOk := true, addFB := fun _ _ _ _ => some 42 } 3 3
    { width := 640, height := 480, stride := 2560, handle := 7, user_data := none }
    { width := 640, height := 480, stride := 2560, handle := 7,
      user_data := some { fb_id := 42, drm_fd := 3 } }
    { fb_id := 42, drm_fd := 3 } 1 rfl

/-- One outcome of a `poll` call on the DRM descriptor: an error return,
revents carrying POLLHUP/POLLERR, revents carrying POLLIN (with whether
the event batch `drmHandleEvent` then dispatches contains a
flip-completion for this window), or a return with no readable event
(the timeout case). -/
inductive PollEv where
  | pollError
  | hupErr
  | readable (hasFlip : Bool)
  | timeout
deriving DecidableEq

/-- `KMSDRM_WaitPageFlip(windata, timeout)`: while the window's
`waiting_for_flip` flag is set, poll the descriptor; on poll error or
POLLHUP/POLLERR return failure; on POLLIN dispatch `drmHandleEvent`
(whose flip handler clears the flag iff a flip-completion event for this
window is in the batch) and loop; otherwise ("timed out and page flip
did not happen") drop the frame and return failure. Returns
`(result, waiting_for_flip out-value, trace)`; `none` when the supplied
poll-outcome stream is exhausted while still waiting (the loop would
keep polling). -/
def KMSDRM_WaitPageFlip (timeout : Int) : Bool → List PollEv → Option (Bool × Bool × List Ev)
  | false, _ => some (true, false, [])
  | true, [] => none
  | true, p :: ps =>
    match p with
    | PollEv.pollError => some (false, true, [Ev.pollCall timeout])
    | PollEv.hupErr => some (false, true, [Ev.pollCall timeout])
    | PollEv.timeout => some (false, true, [Ev.pollCall timeout])
    | PollEv.readable hasFlip =>
      match KMSDRM_WaitPageFlip timeout (!hasFlip) ps with
      | none => none
      | some (r, w, t) => some (r, w, Ev.pollCall timeout :: Ev.handleEvent :: t)


lemma waitPageFlip_skip_nonflip (timeout : Int) (ps : List PollEv) :
    KMSDRM_WaitPageFlip timeout true (PollEv.readable false :: ps) =
      (KMSDRM_WaitPageFlip timeout true ps).map
        (fun x => (x.1, x.2.1, Ev.pollCall timeout :: Ev.handleEvent :: x.2.2)) := by
  rcases h : KMSDRM_WaitPageFlip timeout true ps with _ | ⟨r, w, t⟩
  · simp [KMSDRM_WaitPageFlip, h]
  · simp [KMSDRM_WaitPageFlip, h]

lemma waitPageFlip_mem_flip (timeout : Int) :
    ∀ (ps : List PollEv) (w r w' : Bool) (t : List Ev),
      KMSDRM_WaitPageFlip timeout w ps = some (r, w', t) →
      w = true → w' = false → PollEv.readable true ∈ ps := by
  intro ps
  induction ps with
  | nil =>
    intro w r w' t h hw hw'
    subst hw
    simp [KMSDRM_WaitPageFlip] at h
  | cons p ps ih =>
    intro w r w' t h hw hw'
    subst hw
    subst hw'
    cases p with
    | pollError => simp [KMSDRM_WaitPageFlip] at h
    | hupErr => simp [KMSDRM_WaitPageFlip] at h
    | timeout => simp [KMSDRM_WaitPageFlip] at h
    | readable hasFlip =>
      cases hasFlip with
      | true => exact List.mem_cons_self _ _
      | false =>
        have hstep : KMSDRM_WaitPageFlip timeout true (PollEv.readable false :: ps) =
            (match KMSDRM_WaitPageFlip timeout true ps with
             | none => none
             | some (r, w, t) => some (r, w, Ev.pollCall timeout :: Ev.handleEvent :: t)) := rfl
        rw [hstep] at h
        rcases hrec : KMSDRM_WaitPageFlip timeout true ps with _ | ⟨r0, w0, t0⟩ <;> rw [hrec] at h
        · exact absurd h (by simp)
        · injection h with h1
          have hw0 : w0 = false := congrArg (fun y => y.2.1) h1
          exact List.mem_cons_of_mem _ (ih true r0 w0 t0 hrec rfl hw0)

lemma waitPageFlip_fail_keeps_state (timeout : Int) :
    ∀ (ps : List PollEv) (w r w' : Bool) (t : List Ev),
      KMSDRM_WaitPageFlip timeout w ps = some (r, w', t) →
      r = false → w' = w ∧ w = true := by
  intro ps
  induction ps with
  | nil =>
    intro w r w' t h hr
    cases w with
    | false =>
      subst hr
      have hval : KMSDRM_WaitPageFlip timeout false ([] : List PollEv) =
          some (true, false, ([] : List Ev)) := rfl
      rw [hval] at h
      injection h with h1
      have : true = false := congrArg (fun y => y.1) h1
      exact absurd this (by decide)
    | true => exact absurd h (by simp [KMSDRM_WaitPageFlip])
  | cons p ps ih =>
    intro w r w' t h hr
    cases w with
    | false =>
      subst hr
      have hval : KMSDRM_WaitPageFlip timeout false (p :: ps) =
          some (true, false, ([] : List Ev)) := rfl
      rw [hval] at h
      injection h with h1
      have : true = false := congrArg (fun y => y.1) h1
      exact absurd this (by decide)
    | true =>
      cases p with
      | pollError =>
        have hval : KMSDRM_WaitPageFlip timeout true (PollEv.pollError :: ps) =
            some (false, true, [Ev.pollCall timeout]) := rfl
        rw [hval] at h
        injection h with h1
        have hw : true = w' := congrArg (fun y => y.2.1) h1
        exact ⟨hw.symm, rfl⟩
      | hupErr =>
        have hval : KMSDRM_WaitPageFlip timeout true (PollEv.hupErr :: ps) =
            some (false, true, [Ev.pollCall timeout]) := rfl
        rw [hval] at h
        injection h with h1
        have hw : true = w' := congrArg (fun y => y.2.1) h1
        exact ⟨hw.symm, rfl⟩
      | timeout =>
        have hval : KMSDRM_WaitPageFlip timeout true (PollEv.timeout :: ps) =
            some (false, true, [Ev.pollCall timeout]) := rfl
        rw [hval] at h
        injection h with h1
        have hw : true = w' := congrArg (fun y => y.2.1) h1
        exact ⟨hw.symm, rfl⟩
      | readable hasFlip =>
        have hstep : KMSDRM_WaitPageFlip timeout true (PollEv.readable hasFlip :: ps) =
            (match KMSDRM_WaitPageFlip timeout (!hasFlip) ps with
             | none => none
             | some (r, w, t) => some (r, w, Ev.pollCall timeout :: Ev.handleEvent :: t)) := rfl
        rw [hstep] at h
        rcases hrec : KMSDRM_WaitPageFlip timeout (!hasFlip) ps with _ | ⟨r0, w0, t0⟩ <;>
          rw [hrec] at h
        · exact absurd h (by simp)
        · injection h with h1
          have hr0 : r0 = r := congrArg (fun y => y.1) h1
          have hw0 : w0 = w' := congrArg (fun y => y.2.1) h1
          have := ih (!hasFlip) r0 w0 t0 hrec (hr0.trans hr)
          cases hasFlip with
          | true => exact absurd this.2 (by decide)
          | false => exact ⟨hw0 ▸ this.1, rfl⟩

/-- C2 (amended): `KMSDRM_WaitPageFlip` clears the pending-flip flag only via
a dispatched flip-completion event — a run that starts `FlipPending` and
ends `Idle` dispatched a flip completion, never a timeout, poll
error/hangup or unrelated wake-up; every failure return leaves the
pending-flip state set exactly as it was (still pending); and a readable
wake-up whose dispatched batch is not a flip completion does not return
failure — the loop simply polls again. -/
theorem waitPageFlip_clears_only_on_flip (timeout : Int) (ps : List PollEv)
    (w r w' : Bool) (t : List Ev)
    (h : KMSDRM_WaitPageFlip timeout w ps = some (r, w', t)) :
    (w = true → w' = false → PollEv.readable true ∈ ps) ∧
    (r = false → w' = w ∧ w = true) ∧
    (∀ qs : List PollEv,
      KMSDRM_WaitPageFlip timeout true (PollEv.readable false :: qs) =
        (KMSDRM_WaitPageFlip timeout true qs).map
          (fun x => (x.1, x.2.1, Ev.pollCall timeout :: Ev.handleEvent :: x.2.2))) :=
  ⟨waitPageFlip_mem_flip timeout ps w r w' t h,
   waitPageFlip_fail_keeps_state timeout ps w r w' t h,
   fun qs => waitPageFlip_skip_nonflip timeout qs⟩

/-- Witness for C2's amended theorem: a run that polls once, dispatches a
flip completion and returns success; the flip event is in the stream. -/
theorem waitPageFlip_clears_only_on_flip_witness :
    PollEv.readable true ∈ [PollEv.readable true] :=
  (waitPageFlip_clears_only_on_flip 100 [PollEv.readable true] true true false
      [Ev.pollCall 100, Ev.handleEvent] rfl).1 rfl rfl

/-- Counterexample for C2 as stated: when the poll wakes up readable but the
dispatched event is not a flip completion, the call does not return
failure with the flip still pending (`some (false, true, _)`); the loop
polls again, here dispatching a later flip completion and returning
success. -/
theorem waitPageFlip_nonflip_readable_no_fail :
    KMSDRM_WaitPageFlip 100 true [PollEv.readable false, PollEv.readable true] =
      some (true, false,
        [Ev.pollCall 100, Ev.handleEvent, Ev.pollCall 100, Ev.handleEvent]) ∧
    ∀ t : List Ev,
      KMSDRM_WaitPageFlip 100 true [PollEv.readable false, PollEv.readable true] ≠
        some (false, true, t) := by
  refine ⟨rfl, ?_⟩
  intro t h
  rw [show KMSDRM_WaitPageFlip 100 true [PollEv.readable false, PollEv.readable true] =
      some (true, false,
        [Ev.pollCall 100, Ev.handleEvent, Ev.pollCall 100, Ev.handleEvent]) from rfl] at h
  injection h with h1
  have : true = false := congrArg (fun y => y.1) h1
  exact absurd this (by decide)

/-- The driver's per-display data (`SDL_DisplayData`): connector id, CRTC id,
resolved mode, and the saved pre-existing CRTC configuration. -/
structure DispData where
  conn_id : Nat
  crtc_id : Nat
  mode : DrmMode
  saved_crtc : Option DrmCrtc
deriving DecidableEq

/-- Environment for `KMSDRM_VideoInit`: the kernel oracle of the opened
device, the result of opening `/dev/dri/cardN`, and whether GBM device
creation and the two `SDL_calloc`s succeed. -/
structure InitEnv where
  kernel : Kernel
  openResult : Option Nat
  gbmCreateOk : Bool
  dispAllocOk : Bool
  devnameAllocOk : Bool

/-- The observable outcome of `KMSDRM_VideoInit`: the return code, the
driver data, the display descriptor still allocated at return (`none`
when freed or never allocated), whether `SDL_AddVideoDisplay` ran, the
selected connector and encoder (as fetched; ghost observations for
specification), and the trace of kernel calls. -/
structure InitResult where
  ret : Int
  viddata : VidData
  dispdata : Option DispData
  displayAdded : Bool
  selConn : Option DrmConnector
  selEnc : Option DrmEncoder
  trace : List Ev
deriving DecidableEq

/-- The connector-selection loop of `KMSDRM_VideoInit`: fetch each connector
id in the resource list's order; keep the first that is connected and has
at least one mode (leaving it live), freeing every other fetched
connector. Returns the fetch id and connector, plus the trace. -/
def findConnector (k : Kernel) : List Nat → Option (Nat × DrmConnector) × List Ev
  | [] => (none, [])
  | id :: rest =>
    match k.getConnector id with
    | none => findConnector k rest
    | some c =>
      if c.connected = true ∧ 0 < c.modes.length then
        (some (id, c), [Ev.connGet id])
      else
        ((findConnector k rest).1,
          Ev.connGet id :: Ev.connFree id :: (findConnector k rest).2)

/-- The encoder-acceptance test of `KMSDRM_VideoInit`'s encoder loop: the
encoder's id equals the connector's currently assigned encoder id, or
appears in the connector's list of supported encoder ids. -/
def encoderMatches (conn : DrmConnector) (enc : DrmEncoder) : Bool :=
  (enc.encoder_id == conn.encoder_id) || conn.encoders.contains enc.encoder_id

/-- The encoder-selection loop of `KMSDRM_VideoInit`: fetch each encoder id
in order; keep the first accepted by `encoderMatches` (leaving it live),
freeing every other fetched encoder. -/
def findEncoder (k : Kernel) (conn : DrmConnector) : List Nat → Option (Nat × DrmEncoder) × List Ev
  | [] => (none, [])
  | id :: rest =>
    match k.getEncoder id with
    | none => findEncoder k conn rest
    | some enc =>
      if encoderMatches conn enc then
        (some (id, enc), [Ev.encGet id])
      else
        ((findEncoder k conn rest).1,
          Ev.encGet id :: Ev.encFree id :: (findEncoder k conn rest).2)

/-- The CRTC fallback scan of `KMSDRM_VideoInit`: the first CRTC id in the
resource list whose index bit is set in the encoder's possible-CRTC
bitmask (`possible_crtcs & (1 << i)`). -/
def pickCrtcId (possible : Nat) : List Nat → Nat → Option Nat
  | [], _ => none
  | c :: rest, i => if possible.testBit i then some c else pickCrtcId possible rest (i + 1)

/-- CRTC selection of `KMSDRM_VideoInit`: first try the encoder's currently
assigned CRTC; if that query fails, scan `possible_crtcs` for the first
usable CRTC id and query it (the scan breaks after the first set bit,
whether or not that query succeeds). Returns the CRTC id assigned to the
encoder and the saved CRTC, plus the trace. -/
def getSavedCrtc (k : Kernel) (enc : DrmEncoder) (res : DrmRes) :
    Option (Nat × DrmCrtc) × List Ev :=
  match k.getCrtc enc.crtc_id with
  | some c => (some (enc.crtc_id, c), [Ev.crtcGet enc.crtc_id])
  | none =>
    match pickCrtcId enc.possible_crtcs res.crtcs 0 with
    | none => (none, [])
    | some cid =>
      match k.getCrtc cid with
      | some c => (some (cid, c), [Ev.crtcGet cid])
      | none => (none, [])

/-- `KMSDRM_VideoInit`: allocate the display data, open `/dev/dri/cardN`,
create the GBM device, query resources, select connector, encoder and
CRTC (saving the CRTC's current configuration), resolve the mode (the
saved CRTC's mode, or the connector's mode #0 when the CRTC's mode is
invalid), and register the single display. On any failure branch the
cleanup label frees the live encoder/connector/resources, then frees the
saved CRTC, destroys the GBM device, closes the descriptor and frees the
display data; on success the function returns directly. -/
def KMSDRM_VideoInit (e : InitEnv) (devindex : Nat) : InitResult :=
  if e.dispAllocOk = false then
    { ret := -1, viddata := { devindex := devindex, drm_fd := -1, gbm := false },
      dispdata := none, displayAdded := false, selConn := none, selEnc := none, trace := [] }
  else if e.devnameAllocOk = false then
    { ret := -1, viddata := { devindex := devindex, drm_fd := -1, gbm := false },
      dispdata := none, displayAdded := false, selConn := none, selEnc := none, trace := [] }
  else
    match e.openResult with
    | none =>
      { ret := -1, viddata := { devindex := devindex, drm_fd := -1, gbm := false },
        dispdata := none, displayAdded := false, selConn := none, selEnc := none, trace := [] }
    | some fd =>
      if e.gbmCreateOk = false then
        { ret := -1, viddata := { devindex := devindex, drm_fd := -1, gbm := false },
          dispdata := none, displayAdded := false, selConn := none, selEnc := none,
          trace := [Ev.fdOpen fd, Ev.fdClose fd] }
      else
        match e.kernel.resources with
        | none =>
          { ret := -1, viddata := { devindex := devindex, drm_fd := -1, gbm := false },
            dispdata := none, displayAdded := false, selConn := none, selEnc := none,
            trace := [Ev.fdOpen fd, Ev.gbmNew, Ev.gbmDestroy, Ev.fdClose fd] }
        | some res =>
          match findConnector e.kernel res.connectors with
          | (none, tconn) =>
            { ret := -1, viddata := { devindex := devindex, drm_fd := -1, gbm := false },
              dispdata := none, displayAdded := false, selConn := none, selEnc := none,
              trace := [Ev.fdOpen fd, Ev.gbmNew, Ev.resGet] ++ tconn ++
                [Ev.resFree, Ev.gbmDestroy, Ev.fdClose fd] }
          | (some (connId, conn), tconn) =>
            match findEncoder e.kernel conn res.encoders with
            | (none, tenc) =>
              { ret := -1, viddata := { devindex := devindex, drm_fd := -1, gbm := false },
                dispdata := none, displayAdded := false, selConn := some conn, selEnc := none,
                trace := [Ev.fdOpen fd, Ev.gbmNew, Ev.resGet] ++ tconn ++ tenc ++
                  [Ev.connFree connId, Ev.resFree, Ev.gbmDestroy, Ev.fdClose fd] }
            | (some (encId, enc), tenc) =>
              match getSavedCrtc e.kernel enc res with
              | (none, tcrtc) =>
                { ret := -1, viddata := { devindex := devindex, drm_fd := -1, gbm := false },
                  dispdata := none, displayAdded := false, selConn := some conn,
                  selEnc := some enc,
                  trace := [Ev.fdOpen fd, Ev.gbmNew, Ev.resGet] ++ tconn ++ tenc ++ tcrtc ++
                    [Ev.encFree encId, Ev.connFree connId, Ev.resFree, Ev.gbmDestroy,
                     Ev.fdClose fd] }
              | (some (crtcId, crtc), tcrtc) =>
                { ret := 0,
                  viddata := { devindex := devindex, drm_fd := (fd : Int), gbm := true },
                  dispdata := some
                    { conn_id := conn.connector_id, crtc_id := crtcId,
                      mode := if crtc.mode_valid = 0 then
                          conn.modes.headD { hdisplay := 0, vdisplay := 0, vrefresh := 0 }
                        else crtc.mode,
                      saved_crtc := some crtc },
                  displayAdded := true, selConn := some conn, selEnc := some enc,
                  trace := [Ev.fdOpen fd, Ev.gbmNew, Ev.resGet] ++ tconn ++ tenc ++ tcrtc }


lemma findConnector_trace_shape (k : Kernel) : ∀ (ids : List Nat) (ev : Ev),
    ev ∈ (findConnector k ids).2 →
    (∃ id, ev = Ev.connGet id) ∨ (∃ id, ev = Ev.connFree id) := by
  intro ids
  induction ids with
  | nil => intro ev hmem; exact absurd hmem (by simp [findConnector])
  | cons id rest ih =>
    intro ev hmem
    rcases hc : k.getConnector id with _ | c
    · simp only [findConnector, hc] at hmem
      exact ih ev hmem
    · simp only [findConnector, hc] at hmem
      split at hmem
      · simp only [List.mem_singleton] at hmem
        exact Or.inl ⟨id, hmem⟩
      · simp only [List.mem_cons] at hmem
        rcases hmem with rfl | rfl | hmem
        · exact Or.inl ⟨id, rfl⟩
        · exact Or.inr ⟨id, rfl⟩
        · exact ih ev hmem

lemma findEncoder_trace_shape (k : Kernel) (conn : DrmConnector) :
    ∀ (ids : List Nat) (ev : Ev),
    ev ∈ (findEncoder k conn ids).2 →
    (∃ id, ev = Ev.encGet id) ∨ (∃ id, ev = Ev.encFree id) := by
  intro ids
  induction ids with
  | nil => intro ev hmem; exact absurd hmem (by simp [findEncoder])
  | cons id rest ih =>
    intro ev hmem
    rcases hc : k.getEncoder id with _ | enc
    · simp only [findEncoder, hc] at hmem
      exact ih ev hmem
    · simp only [findEncoder, hc] at hmem
      split at hmem
      · simp only [List.mem_singleton] at hmem
        exact Or.inl ⟨id, hmem⟩
      · simp only [List.mem_cons] at hmem
        rcases hmem with rfl | rfl | hmem
        · exact Or.inl ⟨id, rfl⟩
        · exact Or.inr ⟨id, rfl⟩
        · exact ih ev hmem

lemma getSavedCrtc_none_trace (k : Kernel) (enc : DrmEncoder) (res : DrmRes)
    (tcrtc : List Ev) (h : getSavedCrtc k enc res = (none, tcrtc)) : tcrtc = [] := by
  rcases hc : k.getCrtc enc.crtc_id with _ | c
  · rcases hp : pickCrtcId enc.possible_crtcs res.crtcs 0 with _ | cid
    · simp only [getSavedCrtc, hc, hp] at h
      exact (congrArg Prod.snd h).symm
    · rcases hc2 : k.getCrtc cid with _ | c2
      · simp only [getSavedCrtc, hc, hp, hc2] at h
        exact (congrArg Prod.snd h).symm
      · simp only [getSavedCrtc, hc, hp, hc2] at h
        exact absurd (congrArg Prod.fst h) (by simp)
  · simp only [getSavedCrtc, hc] at h
    exact absurd (congrArg Prod.fst h) (by simp)

lemma findConnector_count_crtc (k : Kernel) (ids : List Nat) (cid : Nat) :
    ((findConnector k ids).2).count (Ev.crtcGet cid) = 0 ∧
    ((findConnector k ids).2).count (Ev.crtcFree cid) = 0 := by
  constructor <;>
    (rw [List.count_eq_zero]
     intro hmem
     rcases findConnector_trace_shape k ids _ hmem with ⟨i, hi⟩ | ⟨i, hi⟩ <;> cases hi)

lemma findEncoder_count_crtc (k : Kernel) (conn : DrmConnector) (ids : List Nat) (cid : Nat) :
    ((findEncoder k conn ids).2).count (Ev.crtcGet cid) = 0 ∧
    ((findEncoder k conn ids).2).count (Ev.crtcFree cid) = 0 := by
  constructor <;>
    (rw [List.count_eq_zero]
     intro hmem
     rcases findEncoder_trace_shape k conn ids _ hmem with ⟨i, hi⟩ | ⟨i, hi⟩ <;> cases hi)

/-- Spec predicate (failure side of C3): the init failed and no partial state
survives — descriptor closed and reset to -1, allocator destroyed,
display descriptor freed, no display registered, and every saved-CRTC
query balanced by a free in the trace. -/
def initFullyUnwound (r : InitResult) : Prop :=
  r.ret = -1 ∧ r.viddata.drm_fd = -1 ∧ r.viddata.gbm = false ∧
  r.dispdata = none ∧ r.displayAdded = false ∧
  ∀ id, (r.trace).count (Ev.crtcGet id) = (r.trace).count (Ev.crtcFree id)

/-- Spec predicate (success side of C3): the init succeeded and left a fully
populated display descriptor with a saved CRTC, a registered display, a
live allocator and an open device descriptor. -/
def initFullySet (r : InitResult) : Prop :=
  r.ret = 0 ∧ 0 ≤ r.viddata.drm_fd ∧ r.viddata.gbm = true ∧
  r.displayAdded = true ∧ ∃ dd, r.dispdata = some dd ∧ dd.saved_crtc.isSome = true

/-- C3: every run of `KMSDRM_VideoInit` either succeeds — fully populated
display descriptor with a saved CRTC, display registered, allocator
live, descriptor open — or fails with every acquired piece of state
unwound: descriptor closed (-1), allocator destroyed, saved CRTC freed,
display descriptor freed, nothing registered. -/
theorem videoInit_success_or_unwound (e : InitEnv) (d : Nat) :
    initFullySet (KMSDRM_VideoInit e d) ∨ initFullyUnwound (KMSDRM_VideoInit e d) := by
  have aux : ∀ r : InitResult, KMSDRM_VideoInit e d = r →
      (initFullySet r ∨ initFullyUnwound r) := by
    intro r h
    unfold KMSDRM_VideoInit at h
    split at h
    · subst h
      exact Or.inr ⟨rfl, rfl, rfl, rfl, rfl, fun id => rfl⟩
    · split at h
      · subst h
        exact Or.inr ⟨rfl, rfl, rfl, rfl, rfl, fun id => rfl⟩
      · split at h
        · subst h
          exact Or.inr ⟨rfl, rfl, rfl, rfl, rfl, fun id => rfl⟩
        · rename_i fd hfd
          split at h
          · subst h
            exact Or.inr ⟨rfl, rfl, rfl, rfl, rfl, fun id => rfl⟩
          · split at h
            · subst h
              exact Or.inr ⟨rfl, rfl, rfl, rfl, rfl, fun id => rfl⟩
            · rename_i res hres
              split at h
              · rename_i tconn hconn
                subst h
                refine Or.inr ⟨rfl, rfl, rfl, rfl, rfl, fun id => ?_⟩
                have hfc := findConnector_count_crtc e.kernel res.connectors id
                rw [hconn] at hfc
                simp only [List.count_append, List.count_cons]
                simp [hfc.1, hfc.2]
              · rename_i connId conn tconn hconn
                split at h
                · rename_i tenc henc
                  subst h
                  refine Or.inr ⟨rfl, rfl, rfl, rfl, rfl, fun id => ?_⟩
                  have hfc := findConnector_count_crtc e.kernel res.connectors id
                  rw [hconn] at hfc
                  have hfe := findEncoder_count_crtc e.kernel conn res.encoders id
                  rw [henc] at hfe
                  simp only [List.count_append, List.count_cons]
                  simp [hfc.1, hfc.2, hfe.1, hfe.2]
                · rename_i encId enc tenc henc
                  split at h
                  · rename_i tcrtc hcrtc
                    subst h
                    refine Or.inr ⟨rfl, rfl, rfl, rfl, rfl, fun id => ?_⟩
                    have hfc := findConnector_count_crtc e.kernel res.connectors id
                    rw [hconn] at hfc
                    have hfe := findEncoder_count_crtc e.kernel conn res.encoders id
                    rw [henc] at hfe
                    have htc := getSavedCrtc_none_trace e.kernel enc res tcrtc hcrtc
                    subst htc
                    simp only [List.count_append, List.count_cons]
                    simp [hfc.1, hfc.2, hfe.1, hfe.2]
                  · rename_i crtcId crtc tcrtc hcrtc
                    subst h
                    exact Or.inl ⟨rfl, by simp, rfl, rfl, ⟨_, rfl, rfl⟩⟩
  exact aux _ rfl

lemma getSavedCrtc_reuse (k : Kernel) (enc : DrmEncoder) (res : DrmRes)
    (cid : Nat) (c c0 : DrmCrtc) (t : List Ev)
    (h : getSavedCrtc k enc res = (some (cid, c), t))
    (h0 : k.getCrtc enc.crtc_id = some c0) :
    cid = enc.crtc_id ∧ c = c0 := by
  simp only [getSavedCrtc, h0] at h
  have h1 := congrArg Prod.fst h
  simp only [Prod.fst] at h1
  injection h1 with h1
  injection h1 with h2 h3
  exact ⟨h2.symm, h3.symm⟩

/-- The all-zero mode (used only as the `headD` default for `modes[0]`; the
selected connector always has at least one mode). -/
def modeZero : DrmMode := { hdisplay := 0, vdisplay := 0, vrefresh := 0 }

/-- C4: for every successful negotiation, the resolved display mode is the
saved CRTC's mode when that CRTC reports a valid mode and the selected
connector's first advertised mode otherwise; and whenever the selected
encoder's currently assigned CRTC answers the query, exactly that CRTC
is saved and reused as the display's CRTC. -/
theorem videoInit_mode_resolution (e : InitEnv) (d : Nat) (conn : DrmConnector)
    (enc : DrmEncoder) (dd : DispData) (c : DrmCrtc)
    (hconn : (KMSDRM_VideoInit e d).selConn = some conn)
    (henc : (KMSDRM_VideoInit e d).selEnc = some enc)
    (hdd : (KMSDRM_VideoInit e d).dispdata = some dd)
    (hc : dd.saved_crtc = some c) :
    dd.mode = (if c.mode_valid = 0 then conn.modes.headD modeZero else c.mode) ∧
    ∀ c0, e.kernel.getCrtc enc.crtc_id = some c0 →
      dd.saved_crtc = some c0 ∧ dd.crtc_id = enc.crtc_id := by
  have aux : ∀ r : InitResult, KMSDRM_VideoInit e d = r →
      r.selConn = some conn → r.selEnc = some enc → r.dispdata = some dd →
      dd.saved_crtc = some c →
      (dd.mode = (if c.mode_valid = 0 then conn.modes.headD modeZero else c.mode) ∧
       ∀ c0, e.kernel.getCrtc enc.crtc_id = some c0 →
         dd.saved_crtc = some c0 ∧ dd.crtc_id = enc.crtc_id) := by
    intro r h hconn henc hdd hc
    unfold KMSDRM_VideoInit at h
    split at h
    · subst h; exact absurd hdd (by simp)
    · split at h
      · subst h; exact absurd hdd (by simp)
      · split at h
        · subst h; exact absurd hdd (by simp)
        · rename_i fd hfd
          split at h
          · subst h; exact absurd hdd (by simp)
          · split at h
            · subst h; exact absurd hdd (by simp)
            · rename_i res hres
              split at h
              · rename_i tconn hconn2
                subst h; exact absurd hdd (by simp)
              · rename_i connId conn0 tconn hconn2
                split at h
                · rename_i tenc henc2
                  subst h; exact absurd hdd (by simp)
                · rename_i encId enc0 tenc henc2
                  split at h
                  · rename_i tcrtc hcrtc2
                    subst h; exact absurd hdd (by simp)
                  · rename_i crtcId crtc tcrtc hcrtc2
                    subst h
                    have e1 := Option.some.inj hconn
                    have e2 := Option.some.inj henc
                    have e3 := Option.some.inj hdd
                    subst e3
                    have e4 := Option.some.inj hc
                    refine ⟨?_, fun c0 h0 => ?_⟩
                    · rw [← e4, ← e1]
                      rfl
                    · rw [← e2] at h0
                      have hr := getSavedCrtc_reuse e.kernel _ res crtcId crtc c0 tcrtc hcrtc2 h0
                      rw [← e2]
                      exact ⟨by rw [hr.2], hr.1⟩
  exact aux _ rfl hconn henc hdd hc

/-- Concrete CRTC for the negotiation scenario: encoder 7's currently
assigned CRTC, with a valid mode of its own. -/
def crtcA : DrmCrtc :=
  { crtc_id := 20, buffer_id := 99, x := 0, y := 0, width := 1920, height := 1080,
    mode_valid := 1, mode := { hdisplay := 1920, vdisplay := 1080, vrefresh := 60 } }

/-- Concrete connector A: disconnected, no modes. -/
def connA : DrmConnector :=
  { connector_id := 10, connected := false, modes := [], encoder_id := 0, encoders := [] }

/-- Concrete connector B: connected, one advertised mode, current encoder 7. -/
def connB : DrmConnector :=
  { connector_id := 11, connected := true,
    modes := [{ hdisplay := 640, vdisplay := 480, vrefresh := 60 }],
    encoder_id := 7, encoders := [7] }

/-- Concrete encoder 7 with assigned CRTC 20. -/
def encA : DrmEncoder := { encoder_id := 7, crtc_id := 20, possible_crtcs := 1 }

/-- Concrete kernel: two connectors (A disconnected, B connected), encoder 7,
CRTC 20. -/
def kernelA : Kernel :=
  { resources := some { connectors := [10, 11], encoders := [7], crtcs := [20] },
    getConnector := fun id =>
      if id = 10 then some connA else if id = 11 then some connB else none,
    getEncoder := fun id => if id = 7 then some encA else none,
    getCrtc := fun id => if id = 20 then some crtcA else none }

/-- Concrete init environment over `kernelA` where every allocation and the
open succeed: negotiation succeeds. -/
def envInitA : InitEnv :=
  { kernel := kernelA, openResult := some 5, gbmCreateOk := true,
    dispAllocOk := true, devnameAllocOk := true }

/-- The display data `KMSDRM_VideoInit` produces on `envInitA`. -/
def ddA : DispData :=
  { conn_id := 11, crtc_id := 20, mode := crtcA.mode, saved_crtc := some crtcA }

/-- Witness for C4: in the concrete scenario (connector A disconnected,
connector B connected with encoder 7 whose CRTC has a valid mode), the
saved CRTC is reused and the resolved mode is the CRTC's mode. -/
theorem videoInit_mode_resolution_witness :
    ddA.mode = (if crtcA.mode_valid = 0 then connB.modes.headD modeZero else crtcA.mode) ∧
    ddA.saved_crtc = some crtcA ∧ ddA.crtc_id = encA.crtc_id := by
  have h := videoInit_mode_resolution envInitA 1 connB encA ddA crtcA rfl rfl rfl rfl
  exact ⟨h.1, h.2 crtcA rfl⟩

/-- C1 (the code violates the claim): on a successful negotiation,
`KMSDRM_VideoInit` returns directly, skipping the cleanup label — the
queried resource list, the selected connector and the selected encoder
are never freed. In the concrete successful run over `envInitA`, each
is acquired once and freed zero times. -/
theorem videoInit_success_leaks_intermediates :
    (KMSDRM_VideoInit envInitA 1).ret = 0 ∧
    ((KMSDRM_VideoInit envInitA 1).trace).count Ev.resGet = 1 ∧
    ((KMSDRM_VideoInit envInitA 1).trace).count Ev.resFree = 0 ∧
    ((KMSDRM_VideoInit envInitA 1).trace).count (Ev.connGet 11) = 1 ∧
    ((KMSDRM_VideoInit envInitA 1).trace).count (Ev.connFree 11) = 0 ∧
    ((KMSDRM_VideoInit envInitA 1).trace).count (Ev.encGet 7) = 1 ∧
    ((KMSDRM_VideoInit envInitA 1).trace).count (Ev.encFree 7) = 0 := by
  decide

/-- Environment for `KMSDRM_VideoQuit`: whether the kernel accepts the
CRTC-restore call (`drmModeSetCrtc`). Its only use in the source is a
log message — the quit path is otherwise identical. -/
structure QuitEnv where
  setCrtcOk : Bool

/-- Recognizer for CRTC-restore events in a trace. -/
def isSetCrtcEv : Ev → Bool
  | Ev.setCrtc _ _ _ _ _ _ => true
  | _ => false

/-- Recognizer for CRTC-free events in a trace. -/
def isCrtcFreeEv : Ev → Bool
  | Ev.crtcFree _ => true
  | _ => false

/-- `KMSDRM_VideoQuit`: if a saved CRTC exists, issue the restore call with
the saved mode, buffer id and position (only when the descriptor is open
and the connector id is positive), then free and null the saved CRTC
regardless of the restore call's outcome; then destroy the GBM device
and close the descriptor. -/
def KMSDRM_VideoQuit (env : QuitEnv) (vd : VidData) (dd : DispData) :
    VidData × DispData × List Ev :=
  let step1 : DispData × List Ev :=
    match dd.saved_crtc with
    | none => (dd, [])
    | some c =>
      ({ dd with saved_crtc := none },
        (if 0 ≤ vd.drm_fd ∧ 0 < dd.conn_id then
            [Ev.setCrtc c.crtc_id c.buffer_id c.x c.y dd.conn_id c.mode]
          else []) ++ [Ev.crtcFree c.crtc_id])
  let step2 : VidData × List Ev :=
    if vd.gbm = true then ({ vd with gbm := false }, [Ev.gbmDestroy]) else (vd, [])
  let step3 : VidData × List Ev :=
    if 0 ≤ step2.1.drm_fd then
      ({ step2.1 with drm_fd := -1 }, [Ev.fdClose step2.1.drm_fd.toNat])
    else (step2.1, [])
  (step3.1, step1.1, step1.2 ++ step2.2 ++ step3.2)

/-- C8: on quit with a saved CRTC (and the open descriptor and positive
connector id a successful init leaves behind), exactly one CRTC-restore
call is issued, carrying exactly the saved CRTC's mode, buffer id and
position and the display's connector id; the saved CRTC is freed and
nulled exactly once; and the entire quit behaviour is identical whether
or not the restore call succeeds. -/
theorem videoQuit_restores_once (env : QuitEnv) (vd : VidData) (dd : DispData) (c : DrmCrtc)
    (h1 : dd.saved_crtc = some c) (h2 : 0 ≤ vd.drm_fd) (h3 : 0 < dd.conn_id) :
    ((KMSDRM_VideoQuit env vd dd).2.2).filter isSetCrtcEv =
      [Ev.setCrtc c.crtc_id c.buffer_id c.x c.y dd.conn_id c.mode] ∧
    ((KMSDRM_VideoQuit env vd dd).2.2).filter isCrtcFreeEv = [Ev.crtcFree c.crtc_id] ∧
    (KMSDRM_VideoQuit env vd dd).2.1.saved_crtc = none ∧
    ∀ env2 : QuitEnv, KMSDRM_VideoQuit env2 vd dd = KMSDRM_VideoQuit env vd dd := by
  refine ⟨?_, ?_, ?_, fun env2 => rfl⟩ <;>
    by_cases hg : vd.gbm = true <;>
    by_cases hf : 0 ≤ vd.drm_fd <;>
    simp [KMSDRM_VideoQuit, h1, h2, h3, hg, hf, isSetCrtcEv, isCrtcFreeEv,
      List.filter_append]

/-- Witness for C8: quitting with viddata `{devindex 1, fd 5, gbm}` and the
display data of the concrete scenario issues exactly the one restore
call with the saved CRTC's parameters. -/
theorem videoQuit_restores_once_witness :
    ((KMSDRM_VideoQuit { setCrtcOk := false }
        { devindex := 1, drm_fd := 5, gbm := true } ddA).2.2).filter isSetCrtcEv =
      [Ev.setCrtc crtcA.crtc_id crtcA.buffer_id crtcA.x crtcA.y ddA.conn_id crtcA.mode] :=
  (videoQuit_restores_once { setCrtcOk := false }
    { devindex := 1, drm_fd := 5, gbm := true } ddA crtcA rfl (by decide) (by decide)).1

/-- The driver's per-window data (`SDL_WindowData`): the pending-flip flag,
the current and next buffer objects, the GBM surface and the EGL
surface (each `none` when absent). -/
structure WinData where
  waiting_for_flip : Bool
  curr_bo : Option Nat
  next_bo : Option Nat
  gs : Option Nat
  egl_surface : Option Nat
deriving DecidableEq

/-- `KMSDRM_DestroyWindow`: wait for any pending page flip with an unbounded
timeout (-1), then release the current and next buffers back to the GBM
surface (each only if present), destroy the EGL surface, destroy the GBM
surface, and free the window data. `none` when the flip wait never
resolves (the poll stream is exhausted while still waiting). -/
def KMSDRM_DestroyWindow (ps : List PollEv) (w : WinData) : Option (WinData × List Ev) :=
  match KMSDRM_WaitPageFlip (-1) w.waiting_for_flip ps with
  | none => none
  | some (_, wf, wt) =>
    some ({ waiting_for_flip := wf, curr_bo := none, next_bo := none, gs := none,
            egl_surface := none },
      wt ++ (match w.curr_bo with | some b => [Ev.releaseBuffer b] | none => []) ++
        (match w.next_bo with | some b => [Ev.releaseBuffer b] | none => []) ++
        (match w.egl_surface with | some _ => [Ev.eglDestroy] | none => []) ++
        (match w.gs with | some _ => [Ev.gsDestroy] | none => []))

lemma waitPageFlip_trace_shape (timeout : Int) :
    ∀ (ps : List PollEv) (w r w' : Bool) (t : List Ev),
      KMSDRM_WaitPageFlip timeout w ps = some (r, w', t) →
      ∀ ev ∈ t, ev = Ev.pollCall timeout ∨ ev = Ev.handleEvent := by
  intro ps
  induction ps with
  | nil =>
    intro w r w' t h ev hmem
    cases w with
    | false =>
      have hval : KMSDRM_WaitPageFlip timeout false ([] : List PollEv) =
          some (true, false, ([] : List Ev)) := rfl
      rw [hval] at h
      injection h with h1
      have ht : ([] : List Ev) = t := congrArg (fun y => y.2.2) h1
      rw [← ht] at hmem
      exact absurd hmem (by simp)
    | true => exact absurd h (by simp [KMSDRM_WaitPageFlip])
  | cons p ps ih =>
    intro w r w' t h ev hmem
    cases w with
    | false =>
      have hval : KMSDRM_WaitPageFlip timeout false (p :: ps) =
          some (true, false, ([] : List Ev)) := rfl
      rw [hval] at h
      injection h with h1
      have ht : ([] : List Ev) = t := congrArg (fun y => y.2.2) h1
      rw [← ht] at hmem
      exact absurd hmem (by simp)
    | true =>
      cases p with
      | pollError =>
        have hval : KMSDRM_WaitPageFlip timeout true (PollEv.pollError :: ps) =
            some (false, true, [Ev.pollCall timeout]) := rfl
        rw [hval] at h
        injection h with h1
        have ht : [Ev.pollCall timeout] = t := congrArg (fun y => y.2.2) h1
        rw [← ht] at hmem
        simp only [List.mem_singleton] at hmem
        exact Or.inl hmem
      | hupErr =>
        have hval : KMSDRM_WaitPageFlip timeout true (PollEv.hupErr :: ps) =
            some (false, true, [Ev.pollCall timeout]) := rfl
        rw [hval] at h
        injection h with h1
        have ht : [Ev.pollCall timeout] = t := congrArg (fun y => y.2.2) h1
        rw [← ht] at hmem
        simp only [List.mem_singleton] at hmem
        exact Or.inl hmem
      | timeout =>
        have hval : KMSDRM_WaitPageFlip timeout true (PollEv.timeout :: ps) =
            some (false, true, [Ev.pollCall timeout]) := rfl
        rw [hval] at h
        injection h with h1
        have ht : [Ev.pollCall timeout] = t := congrArg (fun y => y.2.2) h1
        rw [← ht] at hmem
        simp only [List.mem_singleton] at hmem
        exact Or.inl hmem
      | readable hasFlip =>
        have hstep : KMSDRM_WaitPageFlip timeout true (PollEv.readable hasFlip :: ps) =
            (match KMSDRM_WaitPageFlip timeout (!hasFlip) ps with
             | none => none
             | some (r, w, t) => some (r, w, Ev.pollCall timeout :: Ev.handleEvent :: t)) := rfl
        rw [hstep] at h
        rcases hrec : KMSDRM_WaitPageFlip timeout (!hasFlip) ps with _ | ⟨r0, w0, t0⟩ <;>
          rw [hrec] at h
        · exact absurd h (by simp)
        · injection h with h1
          have ht : Ev.pollCall timeout :: Ev.handleEvent :: t0 = t :=
            congrArg (fun y => y.2.2) h1
          rw [← ht] at hmem
          rcases hmem with _ | ⟨_, hmem⟩
          · exact Or.inl rfl
          · rcases hmem with _ | ⟨_, hmem⟩
            · exact Or.inr rfl
            · exact ih (!hasFlip) r0 w0 t0 hrec ev hmem

/-- C9: destroying a window first runs the unbounded-timeout flip wait, and
only after it resolves releases the current buffer, then the next
buffer, then the EGL surface, then the GBM surface — the wait's trace
strictly precedes the releases — and each buffer is released exactly
once in the whole run. -/
theorem destroyWindow_waits_then_releases (ps : List PollEv) (w : WinData)
    (b1 b2 g s : Nat) (r wf : Bool) (wt : List Ev)
    (hwait : KMSDRM_WaitPageFlip (-1) w.waiting_for_flip ps = some (r, wf, wt))
    (hc : w.curr_bo = some b1) (hn : w.next_bo = some b2)
    (hg : w.gs = some g) (he : w.egl_surface = some s) (hne : b1 ≠ b2) :
    KMSDRM_DestroyWindow ps w = some
      ({ waiting_for_flip := wf, curr_bo := none, next_bo := none, gs := none,
         egl_surface := none },
       wt ++ [Ev.releaseBuffer b1] ++ [Ev.releaseBuffer b2] ++ [Ev.eglDestroy] ++
         [Ev.gsDestroy]) ∧
    (wt ++ [Ev.releaseBuffer b1] ++ [Ev.releaseBuffer b2] ++ [Ev.eglDestroy] ++
      [Ev.gsDestroy]).count (Ev.releaseBuffer b1) = 1 ∧
    (wt ++ [Ev.releaseBuffer b1] ++ [Ev.releaseBuffer b2] ++ [Ev.eglDestroy] ++
      [Ev.gsDestroy]).count (Ev.releaseBuffer b2) = 1 := by
  have hz1 : wt.count (Ev.releaseBuffer b1) = 0 := by
    rw [List.count_eq_zero]
    intro hmem
    rcases waitPageFlip_trace_shape (-1) ps w.waiting_for_flip r wf wt hwait _ hmem with
      h | h <;> cases h
  have hz2 : wt.count (Ev.releaseBuffer b2) = 0 := by
    rw [List.count_eq_zero]
    intro hmem
    rcases waitPageFlip_trace_shape (-1) ps w.waiting_for_flip r wf wt hwait _ hmem with
      h | h <;> cases h
  refine ⟨?_, ?_, ?_⟩
  · unfold KMSDRM_DestroyWindow
    rw [hwait, hc, hn, hg, he]
  · simp [List.count_append, hz1, List.count_singleton, hne]
  · simp [List.count_append, hz2, List.count_singleton, Ne.symm hne]

/-- Concrete window data for the C9 witness: pending flip, both buffers,
GBM and EGL surfaces present. -/
def winC : WinData :=
  { waiting_for_flip := true, curr_bo := some 1, next_bo := some 2,
    gs := some 3, egl_surface := some 4 }

/-- Witness for C9: given a descriptor that reports a flip completion on the
first poll cycle, destruction completes, the wait's two events precede
the releases, and each buffer is released exactly once. -/
theorem destroyWindow_waits_then_releases_witness :
    KMSDRM_DestroyWindow [PollEv.readable true] winC = some
      ({ waiting_for_flip := false, curr_bo := none, next_bo := none, gs := none,
         egl_surface := none },
       [Ev.pollCall (-1), Ev.handleEvent, Ev.releaseBuffer 1, Ev.releaseBuffer 2,
        Ev.eglDestroy, Ev.gsDestroy]) :=
  (destroyWindow_waits_then_releases [PollEv.readable true] winC 1 2 3 4 true false
    [Ev.pollCall (-1), Ev.handleEvent] rfl rfl rfl rfl rfl (by decide)).1
